import Mathlib

/-!
Verification of the `optical_blackbox` secure container codec.

The Python source under `src/optical_blackbox` is shallowly embedded here:
Python floats are modelled as exact rationals extended with signed
infinities, pydantic models become structures, byte strings become
`List Nat`, and fallible operations return `Except`.  Modules of the
repository that are absent from the source tree (the crypto engines in
`optical_blackbox/crypto`, `serialization/binary.py`,
`formats/obb_constants.py`, `formats/obb_header.py` and `exceptions.py`)
are modelled from the specification; each such definition says so in its
doc comment.
-/

namespace OBB

/-- Python `float` values occurring in the codec, modelled exactly: a
finite value is a rational, and the two IEEE infinities are separate
constructors.  (NaN never arises on the code paths verified here.) -/
inductive F where
  | fin (q : ℚ)
  | inf
  | ninf
deriving DecidableEq, Repr

/-- `INFINITY_SENTINEL = 1e99` from `models/surface.py`. -/
def INFINITY_SENTINEL : ℚ := 10 ^ 99

/-- Python `abs(v) >= INFINITY_SENTINEL`; true on both infinities. -/
def F.absGeSentinel : F → Bool
  | .fin q => decide (INFINITY_SENTINEL ≤ |q|)
  | .inf => true
  | .ninf => true

/-- Python `v > 0` on floats. -/
def F.isPos : F → Bool
  | .fin q => decide (0 < q)
  | .inf => true
  | .ninf => false

/-- `SurfaceType` enum from `models/surface.py`. -/
inductive SurfaceType where
  | STANDARD
  | EVENASPH
  | ODDASPH
  | TOROIDAL
deriving DecidableEq, Repr

/-- `SurfaceVisibility` enum from `models/surface.py`. -/
inductive SurfaceVisibility where
  | PUBLIC
  | ENCRYPTED
  | REDACTED
deriving DecidableEq, Repr

/-- `Surface` pydantic model from `models/surface.py`.  Field defaults
mirror the pydantic `Field(default=...)` declarations.  The model
declares no `comment` field; pydantic's default `extra="ignore"` makes a
`comment=` keyword argument to the constructor vanish. -/
structure Surface where
  surface_number : Nat
  surface_type : SurfaceType := .STANDARD
  radius : F := .inf
  thickness : F := .fin 0
  semi_diameter : F := .fin 0
  conic : F := .fin 0
  material : Option String := none
  aspheric_coeffs : Option (List (String × F)) := none
  decenter_x : F := .fin 0
  decenter_y : F := .fin 0
  tilt_x : F := .fin 0
  tilt_y : F := .fin 0
  visibility : SurfaceVisibility := .PUBLIC
deriving DecidableEq, Repr

/-- `Surface.parse_radius` field validator: `None` and any value of
magnitude `>= INFINITY_SENTINEL` (including both IEEE infinities) become
`float("inf")`. -/
def parse_radius (v : Option F) : F :=
  match v with
  | none => .inf
  | some x => if x.absGeSentinel then .inf else x

/-- `Surface.serialize_radius` field serializer: infinities and values of
magnitude `>= INFINITY_SENTINEL` are written as the sentinel with the
sign of the value; everything else passes through. -/
def serialize_radius (value : F) : F :=
  if value = .inf ∨ value = .ninf ∨ value.absGeSentinel then
    (if value.isPos then .fin INFINITY_SENTINEL else .fin (-INFINITY_SENTINEL))
  else value

/-- Modelled from the spec: error kinds of `exceptions.py` (absent from
the source tree), named after the classes imported by `obb_file.py`, plus
the spec's decryption-failure kind and the pydantic/JSON decode failures
the readers can propagate. -/
inductive OBBError where
  | invalidMagicBytes
  | invalidOBBFile
  | invalidSignature
  | decryptionError
  | jsonDecodeError
  | validationError
deriving DecidableEq, Repr

/-- Whether a float is finite. -/
def F.isFinite : F → Bool
  | .fin _ => true
  | .inf => false
  | .ninf => false

/-- Pydantic's JSON-mode serialization of a plain `float` field (no
custom serializer): a finite value is written as a number, and the
infinities are written as `null` (the default `ser_json_inf_nan="null"`
behaviour the repository's own tests work around with an all-finite
fixture "to avoid JSON infinity serialization issues"). -/
def jsonFloat : F → Option ℚ
  | .fin q => some q
  | .inf => none
  | .ninf => none

/-- The JSON-mode dump of a `Surface` (`model_dump(mode="json")`): the
radius goes through its `serialize_radius` field serializer (whose output
is always finite), while every other float field is a plain `float` and
is written through `jsonFloat`, so an infinite thickness (or other
non-radius float) becomes `null`. -/
structure SurfaceDict where
  surface_number : Nat
  surface_type : SurfaceType
  radius : Option F
  thickness : Option ℚ
  semi_diameter : Option ℚ
  conic : Option ℚ
  material : Option String
  aspheric_coeffs : Option (List (String × Option ℚ))
  decenter_x : Option ℚ
  decenter_y : Option ℚ
  tilt_x : Option ℚ
  tilt_y : Option ℚ
  visibility : SurfaceVisibility
deriving DecidableEq, Repr

/-- `Surface.model_dump(mode="json")`. -/
def Surface.model_dump (s : Surface) : SurfaceDict where
  surface_number := s.surface_number
  surface_type := s.surface_type
  radius := some (serialize_radius s.radius)
  thickness := jsonFloat s.thickness
  semi_diameter := jsonFloat s.semi_diameter
  conic := jsonFloat s.conic
  material := s.material
  aspheric_coeffs := s.aspheric_coeffs.map
    (List.map (fun p => (p.1, jsonFloat p.2)))
  decenter_x := jsonFloat s.decenter_x
  decenter_y := jsonFloat s.decenter_y
  tilt_x := jsonFloat s.tilt_x
  tilt_y := jsonFloat s.tilt_y
  visibility := s.visibility

/-- Validation of a plain `float` field: `float` has no before-validator,
so `null` is rejected with a pydantic `ValidationError`. -/
def reqFloat : Option ℚ → Except OBBError F
  | none => .error .validationError
  | some q => .ok (.fin q)

/-- Validation of an aspheric-coefficient mapping (`dict[str, float]`):
every value must be a number, `null` is rejected. -/
def reqCoeffs : List (String × Option ℚ) → Except OBBError (List (String × F))
  | [] => .ok []
  | (k, v) :: rest =>
      match reqFloat v with
      | .error e => .error e
      | .ok fv =>
          match reqCoeffs rest with
          | .error e => .error e
          | .ok frest => .ok ((k, fv) :: frest)

/-- `Surface.model_validate` on a dumped record: the `parse_radius`
before-validator runs on the radius (accepting `null` as infinity); every
other float field rejects `null` with a `ValidationError`; the remaining
fields are taken verbatim. -/
def Surface.model_validate (d : SurfaceDict) : Except OBBError Surface :=
  match reqFloat d.thickness with
  | .error e => .error e
  | .ok thickness =>
  match reqFloat d.semi_diameter with
  | .error e => .error e
  | .ok semi_diameter =>
  match reqFloat d.conic with
  | .error e => .error e
  | .ok conic =>
  match reqFloat d.decenter_x with
  | .error e => .error e
  | .ok decenter_x =>
  match reqFloat d.decenter_y with
  | .error e => .error e
  | .ok decenter_y =>
  match reqFloat d.tilt_x with
  | .error e => .error e
  | .ok tilt_x =>
  match reqFloat d.tilt_y with
  | .error e => .error e
  | .ok tilt_y =>
  match (match d.aspheric_coeffs with
         | none => Except.ok none
         | some cs =>
             match reqCoeffs cs with
             | .error e => .error e
             | .ok fcs => .ok (some fcs)) with
  | .error e => .error e
  | .ok aspheric_coeffs =>
      .ok { surface_number := d.surface_number
            surface_type := d.surface_type
            radius := parse_radius d.radius
            thickness := thickness
            semi_diameter := semi_diameter
            conic := conic
            material := d.material
            aspheric_coeffs := aspheric_coeffs
            decenter_x := decenter_x
            decenter_y := decenter_y
            tilt_x := tilt_x
            tilt_y := tilt_y
            visibility := d.visibility }

/-- Validation of a list of dumped surfaces, failing on the first
invalid one (the list comprehension `[Surface.model_validate(s) for s in
...]` raises at the first bad entry). -/
def validateSurfaces : List SurfaceDict → Except OBBError (List Surface)
  | [] => .ok []
  | d :: ds =>
      match Surface.model_validate d with
      | .error e => .error e
      | .ok s =>
          match validateSurfaces ds with
          | .error e => .error e
          | .ok rest => .ok (s :: rest)

/-- A surface whose non-radius float fields are all finite: exactly the
surfaces whose JSON-mode dump contains no `null` float and therefore
re-validates on read (the radius is always survivable thanks to its
sentinel serializer and null-accepting validator). -/
def Surface.jsonSafe (s : Surface) : Bool :=
  s.thickness.isFinite && s.semi_diameter.isFinite && s.conic.isFinite &&
  s.decenter_x.isFinite && s.decenter_y.isFinite &&
  s.tilt_x.isFinite && s.tilt_y.isFinite &&
  (match s.aspheric_coeffs with
   | none => true
   | some cs => cs.all (fun p => p.2.isFinite))

/-- `field_type` literal `'angle' | 'height'` from `models/surface_group.py`. -/
inductive FieldType where
  | angle
  | height
deriving DecidableEq, Repr

/-- `SurfaceGroup` pydantic model from `models/surface_group.py`. -/
structure SurfaceGroup where
  surfaces : List Surface
  stop_surface : Option Nat := none
  wavelengths_nm : List F := [.fin (58756 / 100)]
  primary_wavelength_index : Nat := 0
  field_type : FieldType := .angle
  max_field : F := .fin 0
deriving DecidableEq, Repr

/-- `SurfaceGroup.get_public_surfaces`. -/
def SurfaceGroup.get_public_surfaces (g : SurfaceGroup) : List Surface :=
  g.surfaces.filter (fun s => decide (s.visibility = SurfaceVisibility.PUBLIC))

/-- `SurfaceGroup.get_encrypted_surfaces`. -/
def SurfaceGroup.get_encrypted_surfaces (g : SurfaceGroup) : List Surface :=
  g.surfaces.filter (fun s => decide (s.visibility = SurfaceVisibility.ENCRYPTED))

/-- `SurfaceGroup.get_redacted_surfaces`. -/
def SurfaceGroup.get_redacted_surfaces (g : SurfaceGroup) : List Surface :=
  g.surfaces.filter (fun s => decide (s.visibility = SurfaceVisibility.REDACTED))

/-! ### Crypto model

`optical_blackbox/crypto` and `optical_blackbox/exceptions.py` are not in
the source tree; the definitions below are modelled from the spec. -/

/-- Modelled from the spec (§4.2): a ciphertext produced by the hybrid
encryption engine of `crypto/hybrid.py` (absent from the source tree).
Keys are modelled by natural-number identifiers: a key pair's public and
private halves share one identifier, so "the private key matching this
public key" is identifier equality.  A ciphertext is an opaque value
determined by the plaintext, the recipient's public key and the
ephemeral key used; AEAD decryption recovers the plaintext exactly when
both keys match and fails closed otherwise. -/
structure Ciphertext (α : Type) where
  data : α
  recipientPub : Nat
  ephId : Nat
deriving DecidableEq, Repr

/-- Modelled from the spec: `generate_ephemeral_keypair` from
`crypto/ecdh.py` (absent from the source tree).  The caller supplies the
fresh randomness `seed`; the result is the (private, public) pair. -/
def generate_ephemeral_keypair (seed : Nat) : Nat × Nat := (seed, seed)

/-- Modelled from the spec (§4.2): `OBBEncryptor.encrypt`.  A fresh
ephemeral key pair is derived from the supplied randomness; the returned
pair is (ciphertext, ephemeral public key). -/
def OBBEncryptor.encrypt {α : Type} (plaintext : α) (recipientPub : Nat)
    (seed : Nat) : Ciphertext α × Nat :=
  let eph := generate_ephemeral_keypair seed
  (⟨plaintext, recipientPub, eph.2⟩, eph.2)

/-- Modelled from the spec (§4.2): `OBBEncryptor.decrypt`: recompute the
shared secret from (own private key, ephemeral public key); AEAD
authentication fails — one opaque `DecryptionError` — unless both keys
match the ones used at encryption time. -/
def OBBEncryptor.decrypt {α : Type} (ct : Ciphertext α) (ephPub : Nat)
    (ownPriv : Nat) : Except OBBError α :=
  if ct.ephId = ephPub ∧ ct.recipientPub = ownPriv then .ok ct.data
  else .error .decryptionError

/-- Modelled from the spec (§4.3): an ECDSA signature over data of type
`π`, as produced by `OBBSigner.sign` of `crypto/hybrid.py` (absent from
the source tree).  A signature is an opaque value determined by the
signed data and the signing key. -/
structure Signature (π : Type) where
  data : π
  key : Nat
deriving DecidableEq, Repr

/-- Modelled from the spec (§4.3): `OBBSigner.sign`. -/
def OBBSigner.sign {π : Type} (data : π) (signerPriv : Nat) : Signature π :=
  ⟨data, signerPriv⟩

/-- Modelled from the spec (§4.3): `OBBSigner.verify` — true exactly when
the signature was produced over this data with the matching key. -/
def OBBSigner.verify {π : Type} [DecidableEq π] (data : π)
    (sig : Signature π) (signerPub : Nat) : Bool :=
  decide (sig = OBBSigner.sign data signerPub)

/-- Crypto-engine invocations, recorded by the embedded functions at the
points where the source calls the corresponding engine, so that ordering
claims (verify-before-decrypt, no-encryption-call) are statable. -/
inductive CryptoEvent where
  | encryptCall
  | decryptCall
  | keygenCall
  | verifyCall (ok : Bool)
deriving DecidableEq, Repr

/-! ### Payload codec (`formats/obb_payload.py`) -/

/-- The selective payload dictionary built by `encrypt_payload_selective`:
mode discriminator, dumped public surfaces, redacted ordinals, the
group-level fields, and the base64 ciphertext field
(`none` models the empty string written when nothing is encrypted). -/
structure SelectivePayload where
  encryption_mode : String
  public_surfaces : List SurfaceDict
  redacted_surface_indices : List Nat
  wavelengths_nm : List F
  primary_wavelength_index : Nat
  stop_surface : Option Nat
  field_type : FieldType
  max_field : F
  encrypted_surfaces_data : Option (Ciphertext (List SurfaceDict))
deriving DecidableEq, Repr

/-- `encrypt_payload_selective` from `formats/obb_payload.py`.  The
`seed` argument supplies the fresh randomness the source draws inside
`OBBEncryptor.encrypt` / `generate_ephemeral_keypair`.  Returns the
payload dict, the ephemeral public key, and the crypto calls made. -/
def encrypt_payload_selective (surface_group : SurfaceGroup)
    (platform_public_key : Nat) (seed : Nat) :
    SelectivePayload × Nat × List CryptoEvent :=
  let public_surfaces := surface_group.get_public_surfaces
  let encrypted_surfaces := surface_group.get_encrypted_surfaces
  let redacted_surfaces := surface_group.get_redacted_surfaces
  if encrypted_surfaces = [] then
    ({ encryption_mode := "selective"
       public_surfaces := public_surfaces.map Surface.model_dump
       redacted_surface_indices := redacted_surfaces.map Surface.surface_number
       wavelengths_nm := surface_group.wavelengths_nm
       primary_wavelength_index := surface_group.primary_wavelength_index
       stop_surface := surface_group.stop_surface
       field_type := surface_group.field_type
       max_field := surface_group.max_field
       encrypted_surfaces_data := none },
     (generate_ephemeral_keypair seed).2, [.keygenCall])
  else
    let r := OBBEncryptor.encrypt (encrypted_surfaces.map Surface.model_dump)
      platform_public_key seed
    ({ encryption_mode := "selective"
       public_surfaces := public_surfaces.map Surface.model_dump
       redacted_surface_indices := redacted_surfaces.map Surface.surface_number
       wavelengths_nm := surface_group.wavelengths_nm
       primary_wavelength_index := surface_group.primary_wavelength_index
       stop_surface := surface_group.stop_surface
       field_type := surface_group.field_type
       max_field := surface_group.max_field
       encrypted_surfaces_data := some r.1 },
     r.2, [.encryptCall])

/-- Stable insertion of a surface into a list sorted by `surface_number`;
an element with an equal key is inserted after the existing ones,
matching the stability of Python's `list.sort`. -/
def insertBySurfaceNumber (x : Surface) : List Surface → List Surface
  | [] => [x]
  | y :: ys =>
      if y.surface_number ≤ x.surface_number then y :: insertBySurfaceNumber x ys
      else x :: y :: ys

/-- `all_surfaces.sort(key=lambda s: s.surface_number)`: Python's stable
sort, embedded as stable insertion sort. -/
def sortBySurfaceNumber : List Surface → List Surface
  | [] => []
  | x :: xs => insertBySurfaceNumber x (sortBySurfaceNumber xs)

/-- The placeholder built for a redacted ordinal in
`decrypt_payload_selective`.  The source also passes
`comment=f"Surface {idx} (redacted)"`, but `Surface` declares no
`comment` field, so pydantic (default `extra="ignore"`) drops it: the
constructed surface carries only the ordinal, the type tag and the
visibility over the defaults. -/
def redactedPlaceholder (idx : Nat) : Surface :=
  { surface_number := idx
    surface_type := .STANDARD
    visibility := .REDACTED }

/-- `decrypt_payload_selective` from `formats/obb_payload.py`: validate
the public surfaces (the first invalid one raises, before any
decryption), decrypt and validate the encrypted blob when the ciphertext
field is non-empty, synthesize placeholders for the redacted ordinals,
concatenate and sort by `surface_number`, and rebuild the group.  Also
returns the crypto calls made. -/
def decrypt_payload_selective (payload_dict : SelectivePayload)
    (ephemeral_public_key : Nat) (platform_private_key : Nat) :
    Except OBBError SurfaceGroup × List CryptoEvent :=
  match validateSurfaces payload_dict.public_surfaces with
  | .error e => (.error e, [])
  | .ok public_surfaces =>
    let redacted_indices := payload_dict.redacted_surface_indices
    match payload_dict.encrypted_surfaces_data with
    | none =>
        let redacted_surfaces := redacted_indices.map redactedPlaceholder
        let all_surfaces :=
          sortBySurfaceNumber (public_surfaces ++ [] ++ redacted_surfaces)
        (.ok { surfaces := all_surfaces
               wavelengths_nm := payload_dict.wavelengths_nm
               primary_wavelength_index := payload_dict.primary_wavelength_index
               stop_surface := payload_dict.stop_surface
               field_type := payload_dict.field_type
               max_field := payload_dict.max_field }, [])
    | some ct =>
        match OBBEncryptor.decrypt ct ephemeral_public_key platform_private_key with
        | .error e => (.error e, [.decryptCall])
        | .ok dumped =>
            match validateSurfaces dumped with
            | .error e => (.error e, [.decryptCall])
            | .ok encrypted_surfaces =>
                let redacted_surfaces := redacted_indices.map redactedPlaceholder
                let all_surfaces :=
                  sortBySurfaceNumber
                    (public_surfaces ++ encrypted_surfaces ++ redacted_surfaces)
                (.ok { surfaces := all_surfaces
                       wavelengths_nm := payload_dict.wavelengths_nm
                       primary_wavelength_index :=
                         payload_dict.primary_wavelength_index
                       stop_surface := payload_dict.stop_surface
                       field_type := payload_dict.field_type
                       max_field := payload_dict.max_field }, [.decryptCall])

/-- The JSON dump of a whole `SurfaceGroup` (`model_dump_json`), the
plaintext of full-mode encryption.  The group's plain float fields go
through `jsonFloat` like the surfaces'.  The pydantic computed fields
(`num_surfaces`, `total_length`) are also emitted but ignored again at
validation, so they are not recorded. -/
structure SurfaceGroupDict where
  surfaces : List SurfaceDict
  stop_surface : Option Nat
  wavelengths_nm : List (Option ℚ)
  primary_wavelength_index : Nat
  field_type : FieldType
  max_field : Option ℚ
deriving DecidableEq, Repr

/-- `SurfaceGroup.model_dump_json`: each surface dumped, the group float
fields through `jsonFloat`, the rest verbatim. -/
def SurfaceGroup.model_dump (g : SurfaceGroup) : SurfaceGroupDict where
  surfaces := g.surfaces.map Surface.model_dump
  stop_surface := g.stop_surface
  wavelengths_nm := g.wavelengths_nm.map jsonFloat
  primary_wavelength_index := g.primary_wavelength_index
  field_type := g.field_type
  max_field := jsonFloat g.max_field

/-- Validation of a `list[float]` field: every entry must be a number. -/
def reqFloats : List (Option ℚ) → Except OBBError (List F)
  | [] => .ok []
  | v :: rest =>
      match reqFloat v with
      | .error e => .error e
      | .ok fv =>
          match reqFloats rest with
          | .error e => .error e
          | .ok frest => .ok (fv :: frest)

/-- `SurfaceGroup.model_validate_json` on a dumped group: surfaces and
float fields are validated (a `null` float raises `ValidationError`). -/
def SurfaceGroup.model_validate (d : SurfaceGroupDict) :
    Except OBBError SurfaceGroup :=
  match validateSurfaces d.surfaces with
  | .error e => .error e
  | .ok surfaces =>
      match reqFloats d.wavelengths_nm with
      | .error e => .error e
      | .ok wavelengths_nm =>
          match reqFloat d.max_field with
          | .error e => .error e
          | .ok max_field =>
              .ok { surfaces := surfaces
                    stop_surface := d.stop_surface
                    wavelengths_nm := wavelengths_nm
                    primary_wavelength_index := d.primary_wavelength_index
                    field_type := d.field_type
                    max_field := max_field }

/-- `encrypt_payload` from `formats/obb_payload.py`: serialize the whole
group and encrypt it as one blob; returns (ciphertext, ephemeral public). -/
def encrypt_payload (surface_group : SurfaceGroup)
    (platform_public_key : Nat) (seed : Nat) :
    Ciphertext SurfaceGroupDict × Nat :=
  OBBEncryptor.encrypt surface_group.model_dump platform_public_key seed

/-! ### Container level (`formats/obb_file.py`)

The payload section of a container holds either the full-mode ciphertext
(bytes that are not valid JSON text) or the JSON-serialized selective
payload dictionary.  The readers' `json.loads` sniffing succeeds exactly
on the second form. -/

/-- What the payload section of a container holds. -/
inductive PayloadSection where
  | full (ct : Ciphertext SurfaceGroupDict)
  | selectiveJson (p : SelectivePayload)
deriving DecidableEq, Repr

/-- `decrypt_payload` from `formats/obb_payload.py`, applied to a payload
section: AEAD-decrypt and validate the group.  JSON text fed to
`OBBEncryptor.decrypt` is not an authentic ciphertext, so (modelled from
the spec §4.2) its authentication fails with the single opaque
decryption error. -/
def decrypt_payload (encrypted_payload : PayloadSection)
    (ephemeral_public_key : Nat) (platform_private_key : Nat) :
    Except OBBError SurfaceGroup × List CryptoEvent :=
  match encrypted_payload with
  | .full ct =>
      match OBBEncryptor.decrypt ct ephemeral_public_key platform_private_key with
      | .error e => (.error e, [.decryptCall])
      | .ok d => (SurfaceGroup.model_validate d, [.decryptCall])
  | .selectiveJson _ => (.error .decryptionError, [.decryptCall])

/-- `OBBMetadata` pydantic model from `models/metadata.py`, generic in
the representation `σ` of the signature it stores (`Signature
PayloadSection` at the structured container level, `Signature (List
Nat)` at the byte level).  `signature := none` models the `""` default;
`created_at` timestamps are naturals. -/
structure OBBMetadata (σ : Type) where
  version : String := "1.0"
  vendor_id : String
  name : String
  efl_mm : F
  na : F
  diameter_mm : F
  spectral_range_nm : F × F
  num_surfaces : Nat
  created_at : Option Nat := none
  signature : Option σ := none
  description : Option String := none
  part_number : Option String := none
deriving DecidableEq, Repr

/-- `verify_payload_signature` from `formats/obb_payload.py`; an absent
(empty) signature never verifies. -/
def verify_payload_signature {π : Type} [DecidableEq π] (payload : π)
    (sig : Option (Signature π)) (vendor_public_key : Nat) : Bool :=
  match sig with
  | none => false
  | some s => OBBSigner.verify payload s vendor_public_key

/-- A container at the structured level: the header contents (metadata
and ephemeral public key) and the payload section. -/
structure Container where
  metadata : OBBMetadata (Signature PayloadSection)
  ephemeral_public : Nat
  payload : PayloadSection
deriving DecidableEq, Repr

/-- `OBBWriter._write_to_stream` (full mode): encrypt, sign the payload,
stamp signature and timestamp into the metadata, emit the container.
`seed` supplies the encryption randomness, `now` the timestamp. -/
def OBBWriter.write_to_stream (surface_group : SurfaceGroup)
    (metadata : OBBMetadata (Signature PayloadSection))
    (vendor_private_key : Nat) (platform_public_key : Nat)
    (seed : Nat) (now : Nat) : Container :=
  let r := encrypt_payload surface_group platform_public_key seed
  let payload := PayloadSection.full r.1
  let signature := OBBSigner.sign payload vendor_private_key
  { metadata := { metadata with signature := some signature, created_at := some now }
    ephemeral_public := r.2
    payload := payload }

/-- `OBBWriter._write_selective_to_stream`: selectively encrypt, sign the
serialized payload dict, stamp the metadata, emit the container. -/
def OBBWriter.write_selective_to_stream (surface_group : SurfaceGroup)
    (metadata : OBBMetadata (Signature PayloadSection))
    (vendor_private_key : Nat) (platform_public_key : Nat)
    (seed : Nat) (now : Nat) : Container :=
  let r := encrypt_payload_selective surface_group platform_public_key seed
  let payload := PayloadSection.selectiveJson r.1
  let signature := OBBSigner.sign payload vendor_private_key
  { metadata := { metadata with signature := some signature, created_at := some now }
    ephemeral_public := r.2.1
    payload := payload }

/-- `OBBReader.read_and_decrypt`: optional signature verification (fails
closed with `InvalidSignatureError`), then full-mode decryption.  Also
returns the crypto calls in order. -/
def OBBReader.read_and_decrypt (c : Container)
    (platform_private_key : Nat) (vendor_public_key : Nat)
    (verify_signature : Bool := true) :
    Except OBBError (OBBMetadata (Signature PayloadSection) × SurfaceGroup)
      × List CryptoEvent :=
  if verify_signature then
    if verify_payload_signature c.payload c.metadata.signature vendor_public_key then
      let r := decrypt_payload c.payload c.ephemeral_public platform_private_key
      (r.1.map (fun sg => (c.metadata, sg)), .verifyCall true :: r.2)
    else (.error .invalidSignature, [.verifyCall false])
  else
    let r := decrypt_payload c.payload c.ephemeral_public platform_private_key
    (r.1.map (fun sg => (c.metadata, sg)), r.2)

/-- `OBBReader.read_and_decrypt_selective`: optional verification, then
`json.loads` of the payload (a full-mode ciphertext is not valid JSON —
the decode error propagates, the source does not catch it there), then
selective reconstruction. -/
def OBBReader.read_and_decrypt_selective (c : Container)
    (platform_private_key : Nat) (vendor_public_key : Nat)
    (verify_signature : Bool := true) :
    Except OBBError (OBBMetadata (Signature PayloadSection) × SurfaceGroup)
      × List CryptoEvent :=
  if verify_signature then
    if verify_payload_signature c.payload c.metadata.signature vendor_public_key then
      match c.payload with
      | .selectiveJson p =>
          let r := decrypt_payload_selective p c.ephemeral_public platform_private_key
          (r.1.map (fun sg => (c.metadata, sg)), .verifyCall true :: r.2)
      | .full _ => (.error .jsonDecodeError, [.verifyCall true])
    else (.error .invalidSignature, [.verifyCall false])
  else
    match c.payload with
    | .selectiveJson p =>
        let r := decrypt_payload_selective p c.ephemeral_public platform_private_key
        (r.1.map (fun sg => (c.metadata, sg)), r.2)
    | .full _ => (.error .jsonDecodeError, [])

/-- `OBBReader.read`: optional verification, then auto-detection — if the
payload parses as a JSON dict whose `encryption_mode` is `"selective"`,
reconstruct selectively; otherwise (including when the payload is not
valid JSON at all, the `except` branch of the source) fall back to
full-mode decryption. -/
def OBBReader.read (c : Container)
    (platform_private_key : Nat) (vendor_public_key : Nat)
    (verify_signature : Bool := true) :
    Except OBBError (OBBMetadata (Signature PayloadSection) × SurfaceGroup)
      × List CryptoEvent :=
  if verify_signature then
    if verify_payload_signature c.payload c.metadata.signature vendor_public_key then
      match c.payload with
      | .selectiveJson p =>
          if p.encryption_mode = "selective" then
            let r := decrypt_payload_selective p c.ephemeral_public platform_private_key
            (r.1.map (fun sg => (c.metadata, sg)), .verifyCall true :: r.2)
          else
            let r := decrypt_payload c.payload c.ephemeral_public platform_private_key
            (r.1.map (fun sg => (c.metadata, sg)), .verifyCall true :: r.2)
      | .full _ =>
          let r := decrypt_payload c.payload c.ephemeral_public platform_private_key
          (r.1.map (fun sg => (c.metadata, sg)), .verifyCall true :: r.2)
    else (.error .invalidSignature, [.verifyCall false])
  else
    match c.payload with
    | .selectiveJson p =>
        if p.encryption_mode = "selective" then
          let r := decrypt_payload_selective p c.ephemeral_public platform_private_key
          (r.1.map (fun sg => (c.metadata, sg)), r.2)
        else
          let r := decrypt_payload c.payload c.ephemeral_public platform_private_key
          (r.1.map (fun sg => (c.metadata, sg)), r.2)
    | .full _ =>
        let r := decrypt_payload c.payload c.ephemeral_public platform_private_key
        (r.1.map (fun sg => (c.metadata, sg)), r.2)

/-! ### Byte level

Bytes are naturals; a file is a `List Nat`.  `serialization/binary.py`,
`formats/obb_constants.py` and `formats/obb_header.py` are absent from
the source tree, so the framing and the header codec below are modelled
from the spec: the container layout is
`MAGIC ++ u32le(header length) ++ header bytes ++ payload bytes` (§4.1,
§6), and the header is a self-contained record that round-trips every
metadata field together with the ephemeral public key (§4.4). -/

/-- Modelled from the spec: the fixed 4-byte magic constant of
`obb_constants.py` (absent from the source tree); the concrete value is
immaterial to the claims, which only compare prefixes against it. -/
def OBB_MAGIC : List Nat := [79, 66, 66, 49]

/-- Little-endian base-255 digits, by structural recursion on a fuel
argument so that the kernel can evaluate it. -/
def natDigitsAux : Nat → Nat → List Nat
  | 0, _ => []
  | fuel + 1, n => if n = 0 then [] else n % 255 :: natDigitsAux fuel (n / 255)

/-- Little-endian base-255 digits of `n` (equal to `Nat.digits 255 n`). -/
def natDigits (n : Nat) : List Nat := natDigitsAux n n

/-- Self-delimiting encoding of a natural: its base-255 digits followed
by a 255 terminator. -/
def encNat (n : Nat) : List Nat := natDigits n ++ [255]

/-- Digits before the first 255 terminator, and the remainder. -/
def parseNatAux : List Nat → Option (List Nat × List Nat)
  | [] => none
  | b :: bs =>
      if b = 255 then some ([], bs)
      else (parseNatAux bs).map (fun r => (b :: r.1, r.2))

/-- Inverse of `encNat`. -/
def parseNat (l : List Nat) : Option (Nat × List Nat) :=
  (parseNatAux l).map (fun r => (Nat.ofDigits 255 r.1, r.2))

/-- Encoding of an integer: a sign byte then the magnitude. -/
def encInt : Int → List Nat
  | .ofNat n => 0 :: encNat n
  | .negSucc n => 1 :: encNat n

/-- Inverse of `encInt`. -/
def parseInt : List Nat → Option (Int × List Nat)
  | 0 :: rest => (parseNat rest).map (fun r => (Int.ofNat r.1, r.2))
  | 1 :: rest => (parseNat rest).map (fun r => (Int.negSucc r.1, r.2))
  | _ => none

/-- Encoding of a float value: a tag byte, then for finite values the
numerator and denominator of the rational. -/
def encF : F → List Nat
  | .fin q => 0 :: (encInt q.num ++ encNat q.den)
  | .inf => [1]
  | .ninf => [2]

/-- Inverse of `encF`. -/
def parseF : List Nat → Option (F × List Nat)
  | 0 :: rest =>
      match parseInt rest with
      | none => none
      | some r =>
          (parseNat r.2).map (fun r2 => (F.fin ((r.1 : ℚ) / (r2.1 : ℚ)), r2.2))
  | 1 :: rest => some (.inf, rest)
  | 2 :: rest => some (.ninf, rest)
  | _ => none

/-- Encoding of a string: its length, then its character codes. -/
def encString (s : String) : List Nat :=
  encNat s.data.length ++ s.data.map Char.toNat

/-- Inverse of `encString`. -/
def parseString (l : List Nat) : Option (String × List Nat) :=
  match parseNat l with
  | none => none
  | some r =>
      if r.1 ≤ r.2.length then
        some (String.mk ((r.2.take r.1).map Char.ofNat), r.2.drop r.1)
      else none

/-- Encoding of an optional value: a presence byte then the value. -/
def encOption {α : Type} (f : α → List Nat) : Option α → List Nat
  | none => [0]
  | some a => 1 :: f a

/-- Inverse of `encOption`. -/
def parseOption {α : Type} (pf : List Nat → Option (α × List Nat)) :
    List Nat → Option (Option α × List Nat)
  | 0 :: rest => some (none, rest)
  | 1 :: rest => (pf rest).map (fun r => (some r.1, r.2))
  | _ => none

/-- Encoding of a stored signature: the key identifier, then the signed
bytes length-prefixed. -/
def encSig (s : Signature (List Nat)) : List Nat :=
  encNat s.key ++ encNat s.data.length ++ s.data

/-- Inverse of `encSig`. -/
def parseSig (l : List Nat) : Option (Signature (List Nat) × List Nat) :=
  match parseNat l with
  | none => none
  | some k =>
      match parseNat k.2 with
      | none => none
      | some n =>
          if n.1 ≤ n.2.length then
            some (⟨n.2.take n.1, k.1⟩, n.2.drop n.1)
          else none

/-- Modelled from the spec (§4.4, §6): the header record of
`obb_header.py` — the public metadata plus the ephemeral public key. -/
structure Header where
  metadata : OBBMetadata (Signature (List Nat))
  ephemeral_public : Nat
deriving DecidableEq, Repr

/-- Byte encoding of the metadata record, every field in order. -/
def encMetadata (m : OBBMetadata (Signature (List Nat))) : List Nat :=
  encString m.version ++ encString m.vendor_id ++ encString m.name ++
  encF m.efl_mm ++ encF m.na ++ encF m.diameter_mm ++
  encF m.spectral_range_nm.1 ++ encF m.spectral_range_nm.2 ++
  encNat m.num_surfaces ++ encOption encNat m.created_at ++
  encOption encSig m.signature ++ encOption encString m.description ++
  encOption encString m.part_number

/-- Inverse of `encMetadata`. -/
def parseMetadata (l : List Nat) :
    Option (OBBMetadata (Signature (List Nat)) × List Nat) :=
  (parseString l).bind fun r1 =>
  (parseString r1.2).bind fun r2 =>
  (parseString r2.2).bind fun r3 =>
  (parseF r3.2).bind fun r4 =>
  (parseF r4.2).bind fun r5 =>
  (parseF r5.2).bind fun r6 =>
  (parseF r6.2).bind fun r7 =>
  (parseF r7.2).bind fun r8 =>
  (parseNat r8.2).bind fun r9 =>
  (parseOption parseNat r9.2).bind fun r10 =>
  (parseOption parseSig r10.2).bind fun r11 =>
  (parseOption parseString r11.2).bind fun r12 =>
  (parseOption parseString r12.2).bind fun r13 =>
  some ({ version := r1.1, vendor_id := r2.1, name := r3.1,
          efl_mm := r4.1, na := r5.1, diameter_mm := r6.1,
          spectral_range_nm := (r7.1, r8.1), num_surfaces := r9.1,
          created_at := r10.1, signature := r11.1,
          description := r12.1, part_number := r13.1 }, r13.2)

/-- Modelled from the spec (§4.4): `serialize_header`. -/
def serialize_header (h : Header) : List Nat :=
  encMetadata h.metadata ++ encNat h.ephemeral_public

/-- Modelled from the spec (§4.4): `deserialize_header`; the header bytes
must be consumed exactly. -/
def deserialize_header (l : List Nat) : Option Header :=
  match parseMetadata l with
  | none => none
  | some r =>
      match parseNat r.2 with
      | none => none
      | some e => if e.2 = [] then some ⟨r.1, e.1⟩ else none

/-- The 4-byte little-endian length prefix written by `BinaryWriter`. -/
def u32le (n : Nat) : List Nat :=
  [n % 256, n / 256 % 256, n / 256 ^ 2 % 256, n / 256 ^ 3 % 256]

/-- Inverse of `u32le`. -/
def parseU32 : List Nat → Option (Nat × List Nat)
  | a :: b :: c :: d :: rest =>
      some (a + 256 * b + 256 ^ 2 * c + 256 ^ 3 * d, rest)
  | _ => none

/-- The byte-level image of `OBBWriter._write_to_stream` /
`_write_selective_to_stream` downstream of payload production: both
writers sign the payload bytes, stamp signature and timestamp into the
metadata, and emit `MAGIC ++ u32le(header length) ++ header ++ payload`
(framing modelled from spec §4.1). -/
def OBBWriter.write_stream_bytes (payload_bytes : List Nat)
    (metadata : OBBMetadata (Signature (List Nat)))
    (vendor_private_key : Nat) (ephemeral_public : Nat) (now : Nat) :
    List Nat :=
  let signature := OBBSigner.sign payload_bytes vendor_private_key
  let md := { metadata with signature := some signature, created_at := some now }
  let header_bytes := serialize_header ⟨md, ephemeral_public⟩
  OBB_MAGIC ++ u32le header_bytes.length ++ header_bytes ++ payload_bytes

/-- The header a write stamps into the container: the caller's metadata
with the signature over the payload bytes and the timestamp filled in,
plus the ephemeral public key.  `OBBWriter.write_stream_bytes` emits
exactly `MAGIC ++ u32le(len) ++ serialize_header (stampedHeader ...) ++
payload`. -/
def stampedHeader (payload_bytes : List Nat)
    (metadata : OBBMetadata (Signature (List Nat)))
    (vendor_private_key : Nat) (ephemeral_public : Nat) (now : Nat) : Header where
  metadata := { metadata with
    signature := some (OBBSigner.sign payload_bytes vendor_private_key)
    created_at := some now }
  ephemeral_public := ephemeral_public

/-- `OBBReader.read_metadata` at the byte level: check the magic, read
the length-prefixed header, deserialize it, return the metadata.  Frame
and header errors are `InvalidOBBFileError`; a magic mismatch is
`InvalidMagicBytesError`. -/
def OBBReader.read_metadata_bytes (file : List Nat) :
    Except OBBError (OBBMetadata (Signature (List Nat))) :=
  if file.take OBB_MAGIC.length = OBB_MAGIC then
    match parseU32 (file.drop OBB_MAGIC.length) with
    | none => .error .invalidOBBFile
    | some r =>
        if r.1 ≤ r.2.length then
          match deserialize_header (r.2.take r.1) with
          | none => .error .invalidOBBFile
          | some h => .ok h.metadata
        else .error .invalidOBBFile
  else .error .invalidMagicBytes

/-- The shared front of `OBBReader.read`, `read_and_decrypt` and
`read_and_decrypt_selective` at the byte level, through the signature
gate: check the magic, read the length-prefixed header, take the rest of
the file as the payload, verify the stored signature over the payload
bytes, and fail closed with `InvalidSignatureError` before any
decryption; on success hand (metadata, ephemeral key, payload bytes) to
the mode-specific decryption path. -/
def OBBReader.read_verified_payload (file : List Nat)
    (vendor_public_key : Nat) :
    Except OBBError (OBBMetadata (Signature (List Nat)) × Nat × List Nat) :=
  if file.take OBB_MAGIC.length = OBB_MAGIC then
    match parseU32 (file.drop OBB_MAGIC.length) with
    | none => .error .invalidOBBFile
    | some r =>
        if r.1 ≤ r.2.length then
          match deserialize_header (r.2.take r.1) with
          | none => .error .invalidOBBFile
          | some h =>
              let payload := r.2.drop r.1
              if verify_payload_signature payload h.metadata.signature
                  vendor_public_key then
                .ok (h.metadata, h.ephemeral_public, payload)
              else .error .invalidSignature
        else .error .invalidOBBFile
  else .error .invalidMagicBytes

/-- `OBBReader.is_valid_obb_file`: the filesystem is a partial map from
paths to contents, `none` covering every open/read failure (missing
file, permissions, I/O error), which the source's `except Exception`
turns into `False`; otherwise only the first `len(OBB_MAGIC)` bytes are
read and compared. -/
def OBBReader.is_valid_obb_file (fs : String → Option (List Nat))
    (path : String) : Bool :=
  match fs path with
  | none => false
  | some bytes => decide (bytes.take OBB_MAGIC.length = OBB_MAGIC)

/-- The per-surface effect of a selective write+read round trip, derived
from the source codec: a redacted surface comes back as the placeholder
for its ordinal; a `jsonSafe` public or encrypted surface comes back from
`model_validate ∘ model_dump` unchanged except that its radius passes
through `serialize_radius` then `parse_radius` (a non-`jsonSafe` surface
does not come back at all — validation raises on its nulled float). -/
def selectiveRoundTrip (s : Surface) : Surface :=
  match s.visibility with
  | .REDACTED => redactedPlaceholder s.surface_number
  | _ => { s with radius := parse_radius (some (serialize_radius s.radius)) }

/-- The verify-before-decrypt property of one reader invocation `out` on
container `c` with vendor key `vpub`: if any decryption happened, the
first recorded event is a successful verification; and if the stored
signature does not verify over the payload, the call failed closed with
`InvalidSignatureError` and never reached decryption. -/
def VerifyFirst
    (out : Except OBBError (OBBMetadata (Signature PayloadSection) × SurfaceGroup)
      × List CryptoEvent)
    (c : Container) (vpub : Nat) : Prop :=
  (CryptoEvent.decryptCall ∈ out.2 →
    out.2.head? = some (CryptoEvent.verifyCall true)) ∧
  (verify_payload_signature c.payload c.metadata.signature vpub = false →
    out.1 = .error .invalidSignature ∧ CryptoEvent.decryptCall ∉ out.2)

/-! ### Concrete sample data for witnesses -/

/-- A concrete metadata record (structured-container level). -/
def sampleMetadata : OBBMetadata (Signature PayloadSection) where
  vendor_id := "acme-optics"
  name := "L1"
  efl_mm := F.fin 50
  na := F.fin 1
  diameter_mm := F.fin 25
  spectral_range_nm := (F.fin 400, F.fin 700)
  num_surfaces := 1

/-- A concrete metadata record (byte level). -/
def sampleMetadataBytes : OBBMetadata (Signature (List Nat)) where
  vendor_id := "acme-optics"
  name := "L1"
  efl_mm := F.fin 50
  na := F.fin 1
  diameter_mm := F.fin 25
  spectral_range_nm := (F.fin 400, F.fin 700)
  num_surfaces := 1

/-- A concrete selective payload with one redacted ordinal. -/
def samplePayload : SelectivePayload where
  encryption_mode := "selective"
  public_surfaces := []
  redacted_surface_indices := [0]
  wavelengths_nm := [F.fin 550]
  primary_wavelength_index := 0
  stop_surface := none
  field_type := .angle
  max_field := F.fin 0
  encrypted_surfaces_data := none

/-- A concrete full-mode ciphertext for recipient key 3, ephemeral 2. -/
def sampleCiphertext : Ciphertext SurfaceGroupDict where
  data := { surfaces := [], stop_surface := none,
            wavelengths_nm := [some 550], primary_wavelength_index := 0,
            field_type := .angle, max_field := some 0 }
  recipientPub := 3
  ephId := 2

/-- A concrete selective-mode container whose signature field is absent. -/
def sampleContainerSelective : Container where
  metadata := sampleMetadata
  ephemeral_public := 2
  payload := .selectiveJson samplePayload

/-- A concrete full-mode container whose signature field is absent. -/
def sampleContainerFull : Container where
  metadata := sampleMetadata
  ephemeral_public := 2
  payload := .full sampleCiphertext

/-- A concrete mixed-visibility group whose public object plane has an
infinite thickness (the canonical object plane of the repository's
conftest fixture). -/
def sampleInfThicknessGroup : SurfaceGroup where
  surfaces :=
    [{ surface_number := 0, thickness := F.inf },
     { surface_number := 1, radius := F.fin 50,
       visibility := .ENCRYPTED },
     { surface_number := 2, visibility := .REDACTED }]
  wavelengths_nm := [F.fin 550]

/-- A concrete group with a mix of all three visibilities. -/
def sampleMixedGroup : SurfaceGroup where
  surfaces :=
    [{ surface_number := 0, radius := F.ninf },
     { surface_number := 1, radius := F.fin 50,
       visibility := .ENCRYPTED },
     { surface_number := 2, visibility := .REDACTED }]
  wavelengths_nm := [F.fin 550]

/-! ### Byte-codec round-trip lemmas -/

theorem parseNatAux_append (ds r : List Nat) (h : ∀ d ∈ ds, d < 255) :
    parseNatAux (ds ++ 255 :: r) = some (ds, r) := by
  induction ds with
  | nil => simp [parseNatAux]
  | cons d ds ih =>
      have hd : d ≠ 255 := Nat.ne_of_lt (h d (List.mem_cons_self d ds))
      simp [parseNatAux, hd, ih (fun x hx => h x (List.mem_cons_of_mem d hx))]

theorem natDigitsAux_eq (fuel : Nat) :
    ∀ n, n ≤ fuel → natDigitsAux fuel n = Nat.digits 255 n := by
  induction fuel with
  | zero =>
      intro n h
      have hn : n = 0 := Nat.le_zero.1 h
      subst hn
      simp [natDigitsAux]
  | succ f ih =>
      intro n h
      by_cases hn : n = 0
      · subst hn
        simp [natDigitsAux]
      · have hd : n / 255 < n := Nat.div_lt_self (Nat.pos_of_ne_zero hn)
          (by norm_num)
        simp only [natDigitsAux, if_neg hn]
        rw [Nat.digits_def' (by norm_num : 1 < 255) (Nat.pos_of_ne_zero hn),
          ih (n / 255) (by omega)]

theorem natDigits_eq (n : Nat) : natDigits n = Nat.digits 255 n :=
  natDigitsAux_eq n n le_rfl

theorem parseNat_encNat (n : Nat) (r : List Nat) :
    parseNat (encNat n ++ r) = some (n, r) := by
  have h := parseNatAux_append (Nat.digits 255 n) r
    (fun d hd => Nat.digits_lt_base (by norm_num) hd)
  simp only [encNat, natDigits_eq, List.append_assoc,
    List.singleton_append] at *
  simp [parseNat, h, Nat.ofDigits_digits]

theorem parseInt_encInt (i : Int) (r : List Nat) :
    parseInt (encInt i ++ r) = some (i, r) := by
  cases i <;> simp [encInt, parseInt, parseNat_encNat]

theorem parseF_encF (v : F) (r : List Nat) :
    parseF (encF v ++ r) = some (v, r) := by
  cases v with
  | fin q =>
      simp [encF, parseF, List.append_assoc, parseInt_encInt, parseNat_encNat,
        Rat.num_div_den]
  | inf => simp [encF, parseF]
  | ninf => simp [encF, parseF]

theorem map_ofNat_toNat : ∀ cs : List Char,
    (cs.map Char.toNat).map Char.ofNat = cs
  | [] => rfl
  | c :: cs => by simp [map_ofNat_toNat cs, Char.ofNat_toNat]

theorem parseString_encString (s : String) (r : List Nat) :
    parseString (encString s ++ r) = some (s, r) := by
  have hlen : (s.data.map Char.toNat).length = s.data.length :=
    List.length_map _ _
  simp only [encString, List.append_assoc]
  simp only [parseString, parseNat_encNat]
  rw [← hlen, if_pos (by simp), List.take_left, List.drop_left,
    map_ofNat_toNat]

theorem parseOption_encOption {α : Type} (f : α → List Nat)
    (pf : List Nat → Option (α × List Nat))
    (hf : ∀ a r, pf (f a ++ r) = some (a, r)) (o : Option α) (r : List Nat) :
    parseOption pf (encOption f o ++ r) = some (o, r) := by
  cases o with
  | none => simp [encOption, parseOption]
  | some a => simp [encOption, parseOption, hf]

theorem parseSig_encSig (s : Signature (List Nat)) (r : List Nat) :
    parseSig (encSig s ++ r) = some (s, r) := by
  simp only [encSig, List.append_assoc]
  simp only [parseSig, parseNat_encNat]
  rw [if_pos (by simp), List.take_left, List.drop_left]

theorem parseOptionNat_enc (o : Option Nat) (r : List Nat) :
    parseOption parseNat (encOption encNat o ++ r) = some (o, r) :=
  parseOption_encOption encNat parseNat parseNat_encNat o r

theorem parseOptionSig_enc (o : Option (Signature (List Nat))) (r : List Nat) :
    parseOption parseSig (encOption encSig o ++ r) = some (o, r) :=
  parseOption_encOption encSig parseSig parseSig_encSig o r

theorem parseOptionString_enc (o : Option String) (r : List Nat) :
    parseOption parseString (encOption encString o ++ r) = some (o, r) :=
  parseOption_encOption encString parseString parseString_encString o r

theorem parseMetadata_encMetadata (m : OBBMetadata (Signature (List Nat))) (r : List Nat) :
    parseMetadata (encMetadata m ++ r) = some (m, r) := by
  have hE : encMetadata m ++ r =
      encString m.version ++ (encString m.vendor_id ++ (encString m.name ++
      (encF m.efl_mm ++ (encF m.na ++ (encF m.diameter_mm ++
      (encF m.spectral_range_nm.1 ++ (encF m.spectral_range_nm.2 ++
      (encNat m.num_surfaces ++ (encOption encNat m.created_at ++
      (encOption encSig m.signature ++ (encOption encString m.description ++
      (encOption encString m.part_number ++ r)))))))))))) := by
    simp [encMetadata, List.append_assoc]
  unfold parseMetadata
  rw [hE, parseString_encString]
  rw [Option.some_bind]
  dsimp only []
  rw [parseString_encString]
  rw [Option.some_bind]
  dsimp only []
  rw [parseString_encString]
  rw [Option.some_bind]
  dsimp only []
  rw [parseF_encF]
  rw [Option.some_bind]
  dsimp only []
  rw [parseF_encF]
  rw [Option.some_bind]
  dsimp only []
  rw [parseF_encF]
  rw [Option.some_bind]
  dsimp only []
  rw [parseF_encF]
  rw [Option.some_bind]
  dsimp only []
  rw [parseF_encF]
  rw [Option.some_bind]
  dsimp only []
  rw [parseNat_encNat]
  rw [Option.some_bind]
  dsimp only []
  rw [parseOptionNat_enc]
  rw [Option.some_bind]
  dsimp only []
  rw [parseOptionSig_enc]
  rw [Option.some_bind]
  dsimp only []
  rw [parseOptionString_enc]
  rw [Option.some_bind]
  dsimp only []
  rw [parseOptionString_enc]
  rw [Option.some_bind]

/-! ### Sorting lemmas -/

theorem insertBySurfaceNumber_perm (x : Surface) (l : List Surface) :
    (insertBySurfaceNumber x l).Perm (x :: l) := by
  induction l with
  | nil => simp [insertBySurfaceNumber]
  | cons y ys ih =>
      by_cases h : y.surface_number ≤ x.surface_number
      · simp only [insertBySurfaceNumber, if_pos h]
        exact (ih.cons y).trans (List.Perm.swap x y ys)
      · simp [insertBySurfaceNumber, if_neg h]

theorem sortBySurfaceNumber_perm (l : List Surface) :
    (sortBySurfaceNumber l).Perm l := by
  induction l with
  | nil => simp [sortBySurfaceNumber]
  | cons x xs ih =>
      exact (insertBySurfaceNumber_perm x _).trans (ih.cons x)

theorem insertBySurfaceNumber_sorted (x : Surface) (l : List Surface)
    (h : l.Sorted (fun s t => s.surface_number ≤ t.surface_number)) :
    (insertBySurfaceNumber x l).Sorted
      (fun s t => s.surface_number ≤ t.surface_number) := by
  induction l with
  | nil => simp [insertBySurfaceNumber]
  | cons y ys ih =>
      have hy := List.rel_of_sorted_cons h
      have hys := h.of_cons
      by_cases hle : y.surface_number ≤ x.surface_number
      · simp only [insertBySurfaceNumber, if_pos hle]
        refine List.sorted_cons.2 ⟨?_, ih hys⟩
        intro b hb
        rcases List.mem_cons.1 ((insertBySurfaceNumber_perm x ys).mem_iff.1 hb) with
          rfl | hbys
        · exact hle
        · exact hy b hbys
      · simp only [insertBySurfaceNumber, if_neg hle]
        have hxy : x.surface_number ≤ y.surface_number := le_of_not_le hle
        refine List.sorted_cons.2 ⟨?_, h⟩
        intro b hb
        rcases List.mem_cons.1 hb with rfl | hbys
        · exact hxy
        · exact le_trans hxy (hy b hbys)

theorem sortBySurfaceNumber_sorted (l : List Surface) :
    (sortBySurfaceNumber l).Sorted
      (fun s t => s.surface_number ≤ t.surface_number) := by
  induction l with
  | nil => simp [sortBySurfaceNumber]
  | cons x xs ih => exact insertBySurfaceNumber_sorted x _ ih

theorem eq_of_perm_sorted_nodup :
    ∀ (l₁ l₂ : List Surface), l₁.Perm l₂ →
      l₁.Sorted (fun s t => s.surface_number ≤ t.surface_number) →
      l₂.Sorted (fun s t => s.surface_number ≤ t.surface_number) →
      (l₁.map Surface.surface_number).Nodup → l₁ = l₂
  | [], l₂, hp, _, _, _ => hp.nil_eq
  | x :: xs, [], hp, _, _, _ => absurd hp.symm.nil_eq (by simp)
  | x :: xs, y :: ys, hp, h₁, h₂, hnd => by
      have hxy : x = y := by
        rcases List.mem_cons.1 (hp.subset (List.mem_cons_self x xs)) with h | hxys
        · exact h
        · have hyx : y.surface_number ≤ x.surface_number :=
            List.rel_of_sorted_cons h₂ x hxys
          rcases List.mem_cons.1 (hp.symm.subset (List.mem_cons_self y ys)) with
            h' | hyxs
          · exact h'.symm
          · have hxy' : x.surface_number ≤ y.surface_number :=
              List.rel_of_sorted_cons h₁ y hyxs
            have heq : x.surface_number = y.surface_number := le_antisymm hxy' hyx
            have hnotin : x.surface_number ∉ xs.map Surface.surface_number :=
              (List.nodup_cons.1 hnd).1
            exact absurd (heq ▸ List.mem_map_of_mem Surface.surface_number hyxs)
              hnotin
      subst hxy
      have htail := eq_of_perm_sorted_nodup xs ys hp.cons_inv h₁.of_cons h₂.of_cons
        (List.nodup_cons.1 hnd).2
      rw [htail]

theorem filter_vis_cons (p : SurfaceVisibility) (x : Surface)
    (xs : List Surface) :
    (x :: xs).filter (fun s => decide (s.visibility = p)) =
      if x.visibility = p then
        x :: xs.filter (fun s => decide (s.visibility = p))
      else xs.filter (fun s => decide (s.visibility = p)) := by
  by_cases h : x.visibility = p <;> simp [List.filter_cons, h]

theorem perm_filter_visibility (l : List Surface) :
    l.Perm
      (l.filter (fun s => decide (s.visibility = SurfaceVisibility.PUBLIC)) ++
       l.filter (fun s => decide (s.visibility = SurfaceVisibility.ENCRYPTED)) ++
       l.filter (fun s => decide (s.visibility = SurfaceVisibility.REDACTED))) := by
  induction l with
  | nil => simp
  | cons x xs ih =>
      rw [filter_vis_cons, filter_vis_cons, filter_vis_cons]
      cases hv : x.visibility with
      | PUBLIC =>
          rw [if_pos rfl, if_neg (by simp), if_neg (by simp)]
          exact ih.cons x
      | ENCRYPTED =>
          rw [if_neg (by simp), if_pos rfl, if_neg (by simp)]
          have hp := List.Perm.append_right
            (xs.filter (fun s => decide (s.visibility = SurfaceVisibility.REDACTED)))
            (@List.perm_middle _ x
              (xs.filter (fun s => decide (s.visibility = SurfaceVisibility.PUBLIC)))
              (xs.filter (fun s => decide (s.visibility = SurfaceVisibility.ENCRYPTED)))).symm
          rw [List.cons_append] at hp
          exact (ih.cons x).trans hp
      | REDACTED =>
          rw [if_neg (by simp), if_neg (by simp), if_pos rfl]
          exact (ih.cons x).trans
            (@List.perm_middle _ x
              (xs.filter (fun s => decide (s.visibility = SurfaceVisibility.PUBLIC)) ++
               xs.filter (fun s => decide (s.visibility = SurfaceVisibility.ENCRYPTED)))
              (xs.filter (fun s => decide (s.visibility = SurfaceVisibility.REDACTED)))).symm

/-! ### Selective round-trip lemmas -/

theorem selectiveRoundTrip_num (s : Surface) :
    (selectiveRoundTrip s).surface_number = s.surface_number := by
  cases hv : s.visibility <;>
    simp [selectiveRoundTrip, hv, redactedPlaceholder]

theorem selectiveRoundTrip_not_redacted (s : Surface)
    (h : s.visibility ≠ SurfaceVisibility.REDACTED) :
    selectiveRoundTrip s =
      { s with radius := parse_radius (some (serialize_radius s.radius)) } := by
  cases hv : s.visibility with
  | REDACTED => exact absurd hv h
  | PUBLIC => simp [selectiveRoundTrip, hv]
  | ENCRYPTED => simp [selectiveRoundTrip, hv]

theorem radius_roundtrip_exact (r : F)
    (h : r = .inf ∨ r.absGeSentinel = false) :
    parse_radius (some (serialize_radius r)) = r := by
  rcases h with rfl | h
  · have hS : (0 : ℚ) < INFINITY_SENTINEL := by norm_num [INFINITY_SENTINEL]
    simp [serialize_radius, parse_radius, F.absGeSentinel, F.isPos,
      abs_of_pos hS]
  · cases r with
    | fin q =>
        have h1 : ¬(F.fin q = F.inf ∨ F.fin q = F.ninf ∨
            (F.fin q).absGeSentinel = true) := by simp [h]
        rw [serialize_radius, if_neg h1]
        simp [parse_radius, h]
    | inf => simp [F.absGeSentinel] at h
    | ninf => simp [F.absGeSentinel] at h

theorem reqFloat_finite (x : F) (h : x.isFinite = true) :
    reqFloat (jsonFloat x) = .ok x := by
  cases x with
  | fin q => rfl
  | inf => simp [F.isFinite] at h
  | ninf => simp [F.isFinite] at h

theorem reqCoeffs_finite : ∀ cs : List (String × F),
    (∀ p ∈ cs, (p.2).isFinite = true) →
    reqCoeffs (cs.map (fun p => (p.1, jsonFloat p.2))) = .ok cs
  | [], _ => rfl
  | (k, v) :: rest, h => by
      have hv : v.isFinite = true := h (k, v) (List.mem_cons_self _ _)
      have hrest := reqCoeffs_finite rest
        (fun p hp => h p (List.mem_cons_of_mem _ hp))
      simp [reqCoeffs, reqFloat_finite v hv, hrest]

theorem model_validate_dump_safe (s : Surface) (h : s.jsonSafe = true) :
    Surface.model_validate (Surface.model_dump s) =
      .ok { s with radius := parse_radius (some (serialize_radius s.radius)) } := by
  simp only [Surface.jsonSafe, Bool.and_eq_true] at h
  obtain ⟨⟨⟨⟨⟨⟨⟨h1, h2⟩, h3⟩, h4⟩, h5⟩, h6⟩, h7⟩, h8⟩ := h
  simp only [Surface.model_dump, Surface.model_validate,
    reqFloat_finite _ h1, reqFloat_finite _ h2, reqFloat_finite _ h3,
    reqFloat_finite _ h4, reqFloat_finite _ h5, reqFloat_finite _ h6,
    reqFloat_finite _ h7]
  cases hc : s.aspheric_coeffs with
  | none => simp [hc]
  | some cs =>
      rw [hc] at h8
      have hall : ∀ p ∈ cs, (p.2).isFinite = true := by
        intro p hp
        have := List.all_eq_true.1 h8 p hp
        simpa using this
      simp [reqCoeffs_finite cs hall]

theorem validateSurfaces_dump : ∀ l : List Surface,
    (∀ s ∈ l, s.jsonSafe = true) →
    validateSurfaces (l.map Surface.model_dump) =
      .ok (l.map (fun s =>
        { s with radius := parse_radius (some (serialize_radius s.radius)) }))
  | [], _ => rfl
  | s :: rest, h => by
      have hs : s.jsonSafe = true := h s (List.mem_cons_self _ _)
      have hrest := validateSurfaces_dump rest
        (fun t ht => h t (List.mem_cons_of_mem _ ht))
      simp [validateSurfaces, model_validate_dump_safe s hs, hrest]

theorem decrypt_encrypt_selective (sg : SurfaceGroup) (k seed : Nat)
    (hsafe : ∀ s ∈ sg.surfaces, s.visibility ≠ SurfaceVisibility.REDACTED →
      s.jsonSafe = true) :
    (decrypt_payload_selective (encrypt_payload_selective sg k seed).1
      (encrypt_payload_selective sg k seed).2.1 k).1 =
    .ok { surfaces := sortBySurfaceNumber
            (sg.get_public_surfaces.map (fun s =>
              { s with radius := parse_radius (some (serialize_radius s.radius)) }) ++
             sg.get_encrypted_surfaces.map (fun s =>
              { s with radius := parse_radius (some (serialize_radius s.radius)) }) ++
             (sg.get_redacted_surfaces.map Surface.surface_number).map
                redactedPlaceholder)
          wavelengths_nm := sg.wavelengths_nm
          primary_wavelength_index := sg.primary_wavelength_index
          stop_surface := sg.stop_surface
          field_type := sg.field_type
          max_field := sg.max_field } := by
  have hpub : ∀ s ∈ sg.get_public_surfaces, s.jsonSafe = true := by
    intro s hs
    have hm := List.mem_filter.1 hs
    have hv : s.visibility = SurfaceVisibility.PUBLIC := by simpa using hm.2
    exact hsafe s hm.1 (by simp [hv])
  have henc : ∀ s ∈ sg.get_encrypted_surfaces, s.jsonSafe = true := by
    intro s hs
    have hm := List.mem_filter.1 hs
    have hv : s.visibility = SurfaceVisibility.ENCRYPTED := by simpa using hm.2
    exact hsafe s hm.1 (by simp [hv])
  have hv1 := validateSurfaces_dump sg.get_public_surfaces hpub
  have hv2 := validateSurfaces_dump sg.get_encrypted_surfaces henc
  by_cases h : sg.get_encrypted_surfaces = []
  · simp [encrypt_payload_selective, decrypt_payload_selective, h, hv1]
  · simp [encrypt_payload_selective, decrypt_payload_selective, h, hv1, hv2,
      OBBEncryptor.encrypt, OBBEncryptor.decrypt, generate_ephemeral_keypair]

theorem decryptList_perm_view (sg : SurfaceGroup) :
    (sg.get_public_surfaces.map (fun (s : Surface) =>
        { s with radius := parse_radius (some (serialize_radius s.radius)) }) ++
     sg.get_encrypted_surfaces.map (fun (s : Surface) =>
        { s with radius := parse_radius (some (serialize_radius s.radius)) }) ++
     (sg.get_redacted_surfaces.map Surface.surface_number).map
        redactedPlaceholder).Perm
    (sg.surfaces.map selectiveRoundTrip) := by
  have h1 : sg.get_public_surfaces.map (fun (s : Surface) =>
      { s with radius := parse_radius (some (serialize_radius s.radius)) }) =
      sg.get_public_surfaces.map selectiveRoundTrip := by
    apply List.map_congr_left
    intro s hs
    have hv : s.visibility = SurfaceVisibility.PUBLIC := by
      have := List.mem_filter.1 hs
      simpa using this.2
    simp [selectiveRoundTrip, hv]
  have h2 : sg.get_encrypted_surfaces.map (fun (s : Surface) =>
      { s with radius := parse_radius (some (serialize_radius s.radius)) }) =
      sg.get_encrypted_surfaces.map selectiveRoundTrip := by
    apply List.map_congr_left
    intro s hs
    have hv : s.visibility = SurfaceVisibility.ENCRYPTED := by
      have := List.mem_filter.1 hs
      simpa using this.2
    simp [selectiveRoundTrip, hv]
  have h3 : (sg.get_redacted_surfaces.map Surface.surface_number).map
      redactedPlaceholder = sg.get_redacted_surfaces.map selectiveRoundTrip := by
    rw [List.map_map]
    apply List.map_congr_left
    intro s hs
    have hv : s.visibility = SurfaceVisibility.REDACTED := by
      have := List.mem_filter.1 hs
      simpa using this.2
    simp [selectiveRoundTrip, hv, Function.comp]
  rw [h1, h2, h3, ← List.map_append, ← List.map_append]
  exact (List.Perm.map selectiveRoundTrip
    (perm_filter_visibility sg.surfaces)).symm

theorem deserialize_serialize_header (h : Header) :
    deserialize_header (serialize_header h) = some h := by
  have h1 := parseMetadata_encMetadata h.metadata (encNat h.ephemeral_public)
  have h2 := parseNat_encNat h.ephemeral_public []
  rw [List.append_nil] at h2
  simp [serialize_header, deserialize_header, h1, h2]

theorem parseU32_u32le (n : Nat) (r : List Nat) (h : n < 2 ^ 32) :
    parseU32 (u32le n ++ r) = some (n, r) := by
  have h' : n < 4294967296 := by norm_num at h ⊢; omega
  simp only [u32le, List.cons_append, List.nil_append, parseU32,
    Option.some.injEq, Prod.mk.injEq]
  norm_num
  omega

theorem read_verified_payload_frame (hb payload : List Nat) (vpub : Nat)
    (hlen : hb.length < 2 ^ 32) (hdr : Header)
    (hdec : deserialize_header hb = some hdr) :
    OBBReader.read_verified_payload
        (OBB_MAGIC ++ u32le hb.length ++ hb ++ payload) vpub =
      if verify_payload_signature payload hdr.metadata.signature vpub then
        .ok (hdr.metadata, hdr.ephemeral_public, payload)
      else .error .invalidSignature := by
  have h1 : OBB_MAGIC ++ u32le hb.length ++ hb ++ payload
      = OBB_MAGIC ++ (u32le hb.length ++ (hb ++ payload)) := by
    simp [List.append_assoc]
  have e1 : (OBB_MAGIC ++ u32le hb.length ++ hb ++ payload).take
      OBB_MAGIC.length = OBB_MAGIC := by
    rw [h1]; exact List.take_left _ _
  have e2 : (OBB_MAGIC ++ u32le hb.length ++ hb ++ payload).drop
      OBB_MAGIC.length = u32le hb.length ++ (hb ++ payload) := by
    rw [h1]; exact List.drop_left _ _
  have e3 := parseU32_u32le hb.length (hb ++ payload) hlen
  have e4 : hb.length ≤ (hb ++ payload).length := by simp
  have e5 : (hb ++ payload).take hb.length = hb := List.take_left _ _
  have e6 : (hb ++ payload).drop hb.length = payload := List.drop_left _ _
  rw [OBBReader.read_verified_payload, e1, if_pos rfl, e2, e3]
  dsimp only []
  rw [if_pos e4, e5, e6, hdec]

theorem decrypt_payload_events (ps : PayloadSection) (e p : Nat) :
    (decrypt_payload ps e p).2 = [CryptoEvent.decryptCall] := by
  cases ps with
  | full ct => cases h : OBBEncryptor.decrypt ct e p <;> simp [decrypt_payload, h]
  | selectiveJson q => rfl

theorem decrypt_payload_selective_events (q : SelectivePayload) (e p : Nat) :
    (decrypt_payload_selective q e p).2 = [] ∨
    (decrypt_payload_selective q e p).2 = [CryptoEvent.decryptCall] := by
  cases hp : validateSurfaces q.public_surfaces with
  | error e' => exact Or.inl (by simp [decrypt_payload_selective, hp])
  | ok ps =>
      cases hq : q.encrypted_surfaces_data with
      | none => exact Or.inl (by simp [decrypt_payload_selective, hp, hq])
      | some ct =>
          refine Or.inr ?_
          cases h : OBBEncryptor.decrypt ct e p with
          | error e' => simp [decrypt_payload_selective, hp, hq, h]
          | ok dumped =>
              cases h2 : validateSurfaces dumped <;>
                simp [decrypt_payload_selective, hp, hq, h, h2]

/-! ### Claim theorems -/

/-- C4, counterexample: the claim asserts the serialize-then-deserialize
round trip returns the *same signed* infinity, but `parse_radius` maps
the negative sentinel `-1e99` (the serialization of `-inf`) to `+inf`,
so `-inf` round-trips to `+inf`, not to itself. -/
theorem C4_counterexample :
    parse_radius (some (serialize_radius F.ninf)) = F.inf ∧ F.inf ≠ F.ninf := by
  constructor
  · have hS : (0 : ℚ) < INFINITY_SENTINEL := by norm_num [INFINITY_SENTINEL]
    simp [serialize_radius, parse_radius, F.absGeSentinel, F.isPos, abs_neg,
      abs_of_pos hS]
  · simp

/-- C4, amended: serialization maps an infinite radius to the sentinel
preserving sign (`+inf` to `+1e99`, `-inf` to `-1e99`), and
deserialization maps a sentinel-magnitude value of either sign to `+inf`;
hence `+inf` round-trips to exactly `+inf`, while `-inf` round-trips to
`+inf` (the sign is not preserved through deserialization). -/
theorem C4_infinity_sentinel :
    serialize_radius F.inf = F.fin INFINITY_SENTINEL ∧
    serialize_radius F.ninf = F.fin (-INFINITY_SENTINEL) ∧
    parse_radius (some (F.fin INFINITY_SENTINEL)) = F.inf ∧
    parse_radius (some (F.fin (-INFINITY_SENTINEL))) = F.inf ∧
    parse_radius (some (serialize_radius F.inf)) = F.inf ∧
    parse_radius (some (serialize_radius F.ninf)) = F.inf := by
  have hS : (0 : ℚ) < INFINITY_SENTINEL := by norm_num [INFINITY_SENTINEL]
  refine ⟨?_, ?_, ?_, ?_, ?_, ?_⟩ <;>
    simp [serialize_radius, parse_radius, F.absGeSentinel, F.isPos, abs_neg,
      abs_of_pos hS]

/-- C5: the claim says the redacted placeholder carries a human-readable
marker that the data was withheld.  The source does pass
`comment=f"Surface {idx} (redacted)"` to the `Surface` constructor, but
`Surface` declares no `comment` field and pydantic's default
`extra="ignore"` drops the keyword, so the placeholder reconstructed for
redacted ordinal 4 is exactly the surface with that ordinal, type tag
`standard`, visibility `REDACTED` and every other field at its default —
its only optional text field (`material`) is `none`, so no marker is
carried.  The ordinal, visibility and default-geometry parts of the
claim hold. -/
theorem C5_redacted_placeholder :
    (decrypt_payload_selective
      { encryption_mode := "selective"
        public_surfaces := []
        redacted_surface_indices := [4]
        wavelengths_nm := [F.fin 550]
        primary_wavelength_index := 0
        stop_surface := none
        field_type := .angle
        max_field := F.fin 0
        encrypted_surfaces_data := none } 3 3).1 =
      .ok { surfaces := [{ surface_number := 4, surface_type := .STANDARD,
                           visibility := .REDACTED }]
            wavelengths_nm := [F.fin 550]
            primary_wavelength_index := 0
            stop_surface := none
            field_type := .angle
            max_field := F.fin 0 } ∧
    ({ surface_number := 4, surface_type := .STANDARD,
       visibility := .REDACTED } : Surface) =
      { surface_number := 4, visibility := .REDACTED } ∧
    ({ surface_number := 4, surface_type := .STANDARD,
       visibility := .REDACTED } : Surface).material = none := by
  refine ⟨rfl, rfl, rfl⟩

/-- C7: when a group has no ENCRYPTED surface, `encrypt_payload_selective`
still generates a fresh ephemeral key pair and returns its public half,
stores the empty ciphertext field (modelled as `none`), and performs no
encryption call — the only crypto-engine invocation is key generation. -/
theorem C7_zero_encrypted (sg : SurfaceGroup) (k seed : Nat)
    (h : sg.get_encrypted_surfaces = []) :
    (encrypt_payload_selective sg k seed).1.encrypted_surfaces_data = none ∧
    (encrypt_payload_selective sg k seed).2.1 =
      (generate_ephemeral_keypair seed).2 ∧
    (encrypt_payload_selective sg k seed).2.2 = [CryptoEvent.keygenCall] ∧
    CryptoEvent.encryptCall ∉ (encrypt_payload_selective sg k seed).2.2 := by
  refine ⟨?_, ?_, ?_, ?_⟩ <;> simp [encrypt_payload_selective, h]

/-- C7 witness at a concrete all-public group. -/
theorem C7_zero_encrypted_witness :
    ({ surfaces := [{ surface_number := 0 }] } : SurfaceGroup).get_encrypted_surfaces = [] ∧
    (encrypt_payload_selective { surfaces := [{ surface_number := 0 }] } 5 9).1.encrypted_surfaces_data = none ∧
    (encrypt_payload_selective { surfaces := [{ surface_number := 0 }] } 5 9).2.1 =
      (generate_ephemeral_keypair 9).2 ∧
    (encrypt_payload_selective { surfaces := [{ surface_number := 0 }] } 5 9).2.2 =
      [CryptoEvent.keygenCall] ∧
    CryptoEvent.encryptCall ∉
      (encrypt_payload_selective { surfaces := [{ surface_number := 0 }] } 5 9).2.2 :=
  ⟨by decide, C7_zero_encrypted { surfaces := [{ surface_number := 0 }] } 5 9 (by decide)⟩

/-- C8: a file whose first `len(OBB_MAGIC)` bytes differ from the magic
constant makes `read_metadata` fail with exactly
`InvalidMagicBytesError`, never a different error. -/
theorem C8_magic_rejection (file : List Nat)
    (h : file.take OBB_MAGIC.length ≠ OBB_MAGIC) :
    OBBReader.read_metadata_bytes file = .error .invalidMagicBytes := by
  simp [OBBReader.read_metadata_bytes, h]

/-- C8 witness at a concrete non-magic file. -/
theorem C8_magic_rejection_witness :
    ([0, 0, 0, 0] : List Nat).take OBB_MAGIC.length ≠ OBB_MAGIC ∧
    OBBReader.read_metadata_bytes [0, 0, 0, 0] = .error .invalidMagicBytes :=
  ⟨by decide, C8_magic_rejection [0, 0, 0, 0] (by decide)⟩

/-- C9: `is_valid_obb_file` is a total boolean probe: it returns `true`
exactly when the path is readable and the file's first
`len(OBB_MAGIC)` bytes equal the magic (any open/read failure gives
`false`, never an exception), and its result depends only on that magic
prefix — it reads no bytes beyond it. -/
theorem C9_validity_probe (fs : String → Option (List Nat)) (path : String) :
    (OBBReader.is_valid_obb_file fs path = true ↔
      ∃ b, fs path = some b ∧ b.take OBB_MAGIC.length = OBB_MAGIC) ∧
    (∀ (fs' : String → Option (List Nat)) (b b' : List Nat),
      fs path = some b → fs' path = some b' →
      b.take OBB_MAGIC.length = b'.take OBB_MAGIC.length →
      OBBReader.is_valid_obb_file fs path =
        OBBReader.is_valid_obb_file fs' path) := by
  constructor
  · cases hfs : fs path with
    | none => simp [OBBReader.is_valid_obb_file, hfs]
    | some b => simp [OBBReader.is_valid_obb_file, hfs]
  · intro fs' b b' hb hb' heq
    simp [OBBReader.is_valid_obb_file, hb, hb', heq]

/-- C9 witness: two files agreeing on the magic prefix but differing
afterwards are judged alike. -/
theorem C9_validity_probe_witness :
    OBBReader.is_valid_obb_file (fun _ => some [79, 66, 66, 49, 0]) "p" =
      OBBReader.is_valid_obb_file (fun _ => some [79, 66, 66, 49, 1]) "p" :=
  (C9_validity_probe (fun _ => some [79, 66, 66, 49, 0]) "p").2
    (fun _ => some [79, 66, 66, 49, 1]) [79, 66, 66, 49, 0]
    [79, 66, 66, 49, 1] rfl rfl (by decide)

/-- C10: a `Surface` constructed without an explicit visibility tag gets
`PUBLIC`; and `encrypt_payload_selective` puts exactly the
PUBLIC-visibility surfaces (dumped) in the cleartext `public_surfaces`
list, exactly the REDACTED ordinals in the redacted list, and only
ENCRYPTED surfaces in the encrypted blob — so a default-visibility
surface lands in the cleartext list and nowhere else. -/
theorem C10_default_visibility :
    (∀ n : Nat, ({ surface_number := n } : Surface).visibility =
      SurfaceVisibility.PUBLIC) ∧
    (∀ (sg : SurfaceGroup) (k seed : Nat),
      (encrypt_payload_selective sg k seed).1.public_surfaces =
        (sg.surfaces.filter
          (fun s => decide (s.visibility = SurfaceVisibility.PUBLIC))).map
            Surface.model_dump ∧
      (encrypt_payload_selective sg k seed).1.redacted_surface_indices =
        (sg.surfaces.filter
          (fun s => decide (s.visibility = SurfaceVisibility.REDACTED))).map
            Surface.surface_number ∧
      ∀ ct, (encrypt_payload_selective sg k seed).1.encrypted_surfaces_data =
          some ct →
        ct.data = (sg.surfaces.filter
          (fun s => decide (s.visibility = SurfaceVisibility.ENCRYPTED))).map
            Surface.model_dump) := by
  refine ⟨fun n => rfl, fun sg k seed => ?_⟩
  by_cases h : sg.get_encrypted_surfaces = []
  · refine ⟨?_, ?_, ?_⟩
    · simp [encrypt_payload_selective, h, SurfaceGroup.get_public_surfaces]
    · simp [encrypt_payload_selective, h, SurfaceGroup.get_redacted_surfaces]
    · intro ct hct
      simp [encrypt_payload_selective, h] at hct
  · refine ⟨?_, ?_, ?_⟩
    · simp [encrypt_payload_selective, h, SurfaceGroup.get_public_surfaces]
    · simp [encrypt_payload_selective, h, SurfaceGroup.get_redacted_surfaces]
    · intro ct hct
      simp [encrypt_payload_selective, h, OBBEncryptor.encrypt] at hct
      rw [← hct]
      simp [SurfaceGroup.get_encrypted_surfaces]

/-- C10 witness: concrete evaluation on a one-encrypted-one-default
group, discharging the encrypted-blob hypothesis. -/
theorem C10_default_visibility_witness :
    (Ciphertext.mk [Surface.model_dump
        { surface_number := 1, visibility := .ENCRYPTED }] 5 9).data =
      (({ surfaces := [{ surface_number := 0 },
          { surface_number := 1, visibility := .ENCRYPTED }] } :
            SurfaceGroup).surfaces.filter
        (fun s => decide (s.visibility = SurfaceVisibility.ENCRYPTED))).map
          Surface.model_dump :=
  ((C10_default_visibility.2
    { surfaces := [{ surface_number := 0 },
      { surface_number := 1, visibility := .ENCRYPTED }] } 5 9).2.2
    (Ciphertext.mk [Surface.model_dump
      { surface_number := 1, visibility := .ENCRYPTED }] 5 9) rfl)

/-- C2: every reader entry point invoked with `verify_signature = True`
verifies the signature first: whenever a decryption call appears in the
event trace, the trace begins with a successful verification; and when
the stored signature does not verify over the payload, the reader fails
closed with `InvalidSignatureError` and no decryption is ever attempted. -/
theorem C2_verify_before_decrypt (c : Container) (priv vpub : Nat) :
    VerifyFirst (OBBReader.read c priv vpub true) c vpub ∧
    VerifyFirst (OBBReader.read_and_decrypt c priv vpub true) c vpub ∧
    VerifyFirst (OBBReader.read_and_decrypt_selective c priv vpub true) c vpub := by
  by_cases hv : verify_payload_signature c.payload c.metadata.signature vpub = true
  · refine ⟨⟨?_, ?_⟩, ⟨?_, ?_⟩, ⟨?_, ?_⟩⟩
    · intro _
      cases hp : c.payload with
      | full ct =>
          rw [hp] at hv
          simp [OBBReader.read, hv, hp]
      | selectiveJson p =>
          rw [hp] at hv
          by_cases hm : p.encryption_mode = "selective" <;>
            simp [OBBReader.read, hv, hp, hm]
    · intro habs; simp [hv] at habs
    · intro _
      simp [OBBReader.read_and_decrypt, hv]
    · intro habs; simp [hv] at habs
    · intro _
      cases hp : c.payload with
      | full ct =>
          rw [hp] at hv
          simp [OBBReader.read_and_decrypt_selective, hv, hp]
      | selectiveJson p =>
          rw [hp] at hv
          simp [OBBReader.read_and_decrypt_selective, hv, hp]
    · intro habs; simp [hv] at habs
  · have hvf : verify_payload_signature c.payload c.metadata.signature vpub =
        false := by simpa using hv
    refine ⟨⟨?_, ?_⟩, ⟨?_, ?_⟩, ⟨?_, ?_⟩⟩
    · simp [OBBReader.read, hvf]
    · intro _; simp [OBBReader.read, hvf]
    · simp [OBBReader.read_and_decrypt, hvf]
    · intro _; simp [OBBReader.read_and_decrypt, hvf]
    · simp [OBBReader.read_and_decrypt_selective, hvf]
    · intro _; simp [OBBReader.read_and_decrypt_selective, hvf]

/-- C2 witness at a concrete container whose stored signature is absent
(so verification fails), discharging the implications of `VerifyFirst`. -/
theorem C2_verify_before_decrypt_witness :
    VerifyFirst (OBBReader.read sampleContainerSelective 3 4 true)
      sampleContainerSelective 4 :=
  (C2_verify_before_decrypt sampleContainerSelective 3 4).1

/-- C6: the auto-detecting `OBBReader.read` agrees with
`read_and_decrypt` on every full-mode container — a payload that is not
valid JSON text is a definitive signal for full decryption, not an error
— and agrees with `read_and_decrypt_selective` on every selective-mode
container (payload a JSON dict with `encryption_mode = "selective"`). -/
theorem C6_auto_detect (c : Container) (priv vpub : Nat) (vs : Bool) :
    (∀ ct, c.payload = .full ct →
      OBBReader.read c priv vpub vs = OBBReader.read_and_decrypt c priv vpub vs) ∧
    (∀ p, c.payload = .selectiveJson p → p.encryption_mode = "selective" →
      OBBReader.read c priv vpub vs =
        OBBReader.read_and_decrypt_selective c priv vpub vs) := by
  constructor
  · intro ct hct
    cases vs with
    | false => simp [OBBReader.read, OBBReader.read_and_decrypt, hct]
    | true =>
        by_cases hv : verify_payload_signature c.payload c.metadata.signature
            vpub = true <;>
          simp [OBBReader.read, OBBReader.read_and_decrypt, hct, hv]
  · intro p hp hm
    cases vs with
    | false =>
        simp [OBBReader.read, OBBReader.read_and_decrypt_selective, hp, hm]
    | true =>
        by_cases hv : verify_payload_signature c.payload c.metadata.signature
            vpub = true <;>
          simp [OBBReader.read, OBBReader.read_and_decrypt_selective, hp, hm, hv]

/-- C6 witness: concrete agreement of the auto-detecting read with the
full-mode reader on a full-mode container. -/
theorem C6_auto_detect_witness :
    OBBReader.read sampleContainerFull 3 4 true =
      OBBReader.read_and_decrypt sampleContainerFull 3 4 true :=
  (C6_auto_detect sampleContainerFull 3 4 true).1 sampleCiphertext rfl

/-- C3: tamper detection.  A container written over payload bytes
`pre ++ a :: suf` consists of the frame prefix
`MAGIC ++ u32le(len) ++ header` followed by those payload bytes
(first conjunct); reading the same container with any single payload
byte changed (`b ≠ a` at position `pre.length` of the payload section)
with signature verification enabled fails with exactly
`InvalidSignatureError` — no crash, no silent pass (second conjunct). -/
theorem C3_tamper_detection (pre suf : List Nat) (a b : Nat) (hab : b ≠ a)
    (md : OBBMetadata (Signature (List Nat))) (vkey eph now : Nat)
    (hlen : (serialize_header
      (stampedHeader (pre ++ a :: suf) md vkey eph now)).length < 2 ^ 32) :
    OBBWriter.write_stream_bytes (pre ++ a :: suf) md vkey eph now =
      OBB_MAGIC ++
      u32le (serialize_header
        (stampedHeader (pre ++ a :: suf) md vkey eph now)).length ++
      serialize_header (stampedHeader (pre ++ a :: suf) md vkey eph now) ++
      (pre ++ a :: suf) ∧
    OBBReader.read_verified_payload
      (OBB_MAGIC ++
       u32le (serialize_header
         (stampedHeader (pre ++ a :: suf) md vkey eph now)).length ++
       serialize_header (stampedHeader (pre ++ a :: suf) md vkey eph now) ++
       (pre ++ b :: suf)) vkey = .error .invalidSignature := by
  constructor
  · rfl
  · rw [read_verified_payload_frame _ _ _ hlen
      (stampedHeader (pre ++ a :: suf) md vkey eph now)
      (deserialize_serialize_header _)]
    have hne : pre ++ a :: suf ≠ pre ++ b :: suf := by
      intro h
      have h2 := List.append_cancel_left h
      have h3 : a = b := by injection h2
      exact hab h3.symm
    have hvf : verify_payload_signature (pre ++ b :: suf)
        (stampedHeader (pre ++ a :: suf) md vkey eph now).metadata.signature
        vkey = false := by
      have hs : (stampedHeader (pre ++ a :: suf) md vkey eph now).metadata.signature
          = some (OBBSigner.sign (pre ++ a :: suf) vkey) := rfl
      rw [hs]
      simp only [verify_payload_signature, OBBSigner.verify]
      rw [decide_eq_false_iff_not]
      intro h
      exact hne (congrArg Signature.data h)
    rw [hvf]
    simp

set_option maxRecDepth 10000 in
/-- C3 witness: a concrete one-byte write whose payload byte is flipped
from 7 to 8, with the header-length side condition discharged by
computation. -/
theorem C3_tamper_detection_witness :
    OBBWriter.write_stream_bytes [7] sampleMetadataBytes 1 2 3 =
      OBB_MAGIC ++
      u32le (serialize_header (stampedHeader [7] sampleMetadataBytes 1 2 3)).length ++
      serialize_header (stampedHeader [7] sampleMetadataBytes 1 2 3) ++ [7] ∧
    OBBReader.read_verified_payload
      (OBB_MAGIC ++
       u32le (serialize_header (stampedHeader [7] sampleMetadataBytes 1 2 3)).length ++
       serialize_header (stampedHeader [7] sampleMetadataBytes 1 2 3) ++
       [8]) 1 = .error .invalidSignature := by
  have h := C3_tamper_detection [] [] 7 8 (by decide) sampleMetadataBytes 1 2 3
    (by decide)
  simpa using h

set_option maxRecDepth 10000 in
/-- C1, counterexample: the claim fails on the code in two ways.  (i) A
public surface with radius `-inf` (serialized to the `-1e99` sentinel,
deserialized by `parse_radius` to `+inf`) comes back with radius
`+inf ≠ -inf`, not field-for-field identical: for the mixed group whose
public surface 0 has radius `-inf`, the round trip yields surface 0 with
radius `+inf`.  (ii) A public surface with an infinite thickness (the
canonical object plane) does not come back at all: pydantic's JSON mode
writes the `±inf` of a plain float field as `null`, read-side validation
rejects `null`, and the round trip raises a `ValidationError` instead of
returning a group. -/
theorem C1_counterexample :
    (decrypt_payload_selective (encrypt_payload_selective sampleMixedGroup 5 9).1
        (encrypt_payload_selective sampleMixedGroup 5 9).2.1 5).1 =
      .ok { surfaces :=
              [{ surface_number := 0, radius := F.inf },
               { surface_number := 1, radius := F.fin 50,
                 visibility := .ENCRYPTED },
               { surface_number := 2, visibility := .REDACTED }]
            wavelengths_nm := [F.fin 550]
            primary_wavelength_index := 0
            stop_surface := none
            field_type := .angle
            max_field := F.fin 0 } ∧
    (sampleMixedGroup.surfaces.map Surface.radius).head? = some F.ninf ∧
    F.inf ≠ F.ninf ∧
    (decrypt_payload_selective
        (encrypt_payload_selective sampleInfThicknessGroup 5 9).1
        (encrypt_payload_selective sampleInfThicknessGroup 5 9).2.1 5).1 =
      .error .validationError ∧
    (sampleInfThicknessGroup.surfaces.map Surface.thickness).head? =
      some F.inf := by
  refine ⟨by rfl, by decide, by decide, by rfl, by decide⟩

/-- C1 (amended): selective round trip with matching keys, pairwise
distinct ordinals, and every non-redacted surface JSON-safe (its
non-radius float fields finite — an infinite one is written as `null` by
pydantic's JSON mode and rejected by read-side validation, so such a
group does not round-trip at all) reconstructs the group: the surface
list equals the stable sort by ordinal of the per-surface round-trip
images; it is sorted by ordinal and its ordinals are a permutation of
the originals (so the order is the original ordinal order); the
group-level fields are preserved; every non-redacted surface comes back
from `model_validate ∘ model_dump` identical except that its radius
passes through the sentinel codec — exactly identical whenever the
radius is `+inf` or of magnitude below `1e99`, while `-inf` and
magnitude-`>= 1e99` radii are canonicalized to `+inf`; and every
redacted surface comes back as the default-geometry placeholder carrying
its ordinal. -/
theorem C1_selective_roundtrip (sg : SurfaceGroup) (k seed : Nat)
    (hnodup : (sg.surfaces.map Surface.surface_number).Nodup)
    (hsafe : ∀ s ∈ sg.surfaces, s.visibility ≠ SurfaceVisibility.REDACTED →
      s.jsonSafe = true) :
    ∃ sg', (decrypt_payload_selective (encrypt_payload_selective sg k seed).1
        (encrypt_payload_selective sg k seed).2.1 k).1 = .ok sg' ∧
      sg'.surfaces = sortBySurfaceNumber (sg.surfaces.map selectiveRoundTrip) ∧
      (sg'.surfaces.map Surface.surface_number).Sorted (· ≤ ·) ∧
      (sg'.surfaces.map Surface.surface_number).Perm
        (sg.surfaces.map Surface.surface_number) ∧
      (∀ s ∈ sg.surfaces, selectiveRoundTrip s ∈ sg'.surfaces) ∧
      sg'.wavelengths_nm = sg.wavelengths_nm ∧
      sg'.primary_wavelength_index = sg.primary_wavelength_index ∧
      sg'.stop_surface = sg.stop_surface ∧
      sg'.field_type = sg.field_type ∧
      sg'.max_field = sg.max_field ∧
      (∀ s ∈ sg.surfaces, s.visibility ≠ .REDACTED →
        Surface.model_validate (Surface.model_dump s) =
          .ok (selectiveRoundTrip s)) ∧
      (∀ s ∈ sg.surfaces, s.visibility ≠ .REDACTED →
        selectiveRoundTrip s =
          { s with radius := parse_radius (some (serialize_radius s.radius)) }) ∧
      (∀ s ∈ sg.surfaces, s.visibility ≠ .REDACTED →
        (s.radius = .inf ∨ s.radius.absGeSentinel = false) →
        selectiveRoundTrip s = s) ∧
      (∀ s ∈ sg.surfaces, s.visibility = .REDACTED →
        selectiveRoundTrip s = redactedPlaceholder s.surface_number) := by
  have hmapnum : (sg.surfaces.map selectiveRoundTrip).map Surface.surface_number
      = sg.surfaces.map Surface.surface_number := by
    rw [List.map_map]
    exact List.map_congr_left (fun s _ => selectiveRoundTrip_num s)
  have hperm := decryptList_perm_view sg
  have hsortperm := sortBySurfaceNumber_perm
    (sg.get_public_surfaces.map (fun (s : Surface) =>
      { s with radius := parse_radius (some (serialize_radius s.radius)) }) ++
     sg.get_encrypted_surfaces.map (fun (s : Surface) =>
      { s with radius := parse_radius (some (serialize_radius s.radius)) }) ++
     (sg.get_redacted_surfaces.map Surface.surface_number).map
       redactedPlaceholder)
  have hkeys : ((sortBySurfaceNumber
      (sg.get_public_surfaces.map (fun (s : Surface) =>
        { s with radius := parse_radius (some (serialize_radius s.radius)) }) ++
       sg.get_encrypted_surfaces.map (fun (s : Surface) =>
        { s with radius := parse_radius (some (serialize_radius s.radius)) }) ++
       (sg.get_redacted_surfaces.map Surface.surface_number).map
         redactedPlaceholder)).map Surface.surface_number).Perm
      (sg.surfaces.map Surface.surface_number) := by
    have h := (hsortperm.trans hperm).map Surface.surface_number
    rwa [hmapnum] at h
  refine ⟨_, decrypt_encrypt_selective sg k seed hsafe, ?_, ?_, ?_, ?_, rfl,
    rfl, rfl, rfl, rfl, ?_, ?_, ?_, ?_⟩
  · exact eq_of_perm_sorted_nodup _ _
      (hsortperm.trans (hperm.trans (sortBySurfaceNumber_perm
        (sg.surfaces.map selectiveRoundTrip)).symm))
      (sortBySurfaceNumber_sorted _) (sortBySurfaceNumber_sorted _)
      (hkeys.nodup_iff.mpr hnodup)
  · exact List.pairwise_map.mpr (sortBySurfaceNumber_sorted _)
  · exact hkeys
  · intro s hs
    exact (hsortperm.trans hperm).mem_iff.2
      (List.mem_map_of_mem selectiveRoundTrip hs)
  · intro s hs hvis
    rw [model_validate_dump_safe s (hsafe s hs hvis),
      selectiveRoundTrip_not_redacted s hvis]
  · intro s _ hvis
    exact selectiveRoundTrip_not_redacted s hvis
  · intro s _ hvis hr
    rw [selectiveRoundTrip_not_redacted s hvis,
      radius_roundtrip_exact s.radius hr]
  · intro s _ hv
    simp only [selectiveRoundTrip, hv]

/-- C1 witness: the amended round-trip theorem applied to the concrete
mixed-visibility group, with the distinct-ordinals and JSON-safety
hypotheses discharged by computation. -/
theorem C1_selective_roundtrip_witness :
    ∃ sg', (decrypt_payload_selective
        (encrypt_payload_selective sampleMixedGroup 5 9).1
        (encrypt_payload_selective sampleMixedGroup 5 9).2.1 5).1 = .ok sg' ∧
      sg'.surfaces =
        sortBySurfaceNumber (sampleMixedGroup.surfaces.map selectiveRoundTrip) ∧
      (sg'.surfaces.map Surface.surface_number).Sorted (· ≤ ·) ∧
      (sg'.surfaces.map Surface.surface_number).Perm
        (sampleMixedGroup.surfaces.map Surface.surface_number) ∧
      (∀ s ∈ sampleMixedGroup.surfaces, selectiveRoundTrip s ∈ sg'.surfaces) ∧
      sg'.wavelengths_nm = sampleMixedGroup.wavelengths_nm ∧
      sg'.primary_wavelength_index = sampleMixedGroup.primary_wavelength_index ∧
      sg'.stop_surface = sampleMixedGroup.stop_surface ∧
      sg'.field_type = sampleMixedGroup.field_type ∧
      sg'.max_field = sampleMixedGroup.max_field ∧
      (∀ s ∈ sampleMixedGroup.surfaces, s.visibility ≠ .REDACTED →
        Surface.model_validate (Surface.model_dump s) =
          .ok (selectiveRoundTrip s)) ∧
      (∀ s ∈ sampleMixedGroup.surfaces, s.visibility ≠ .REDACTED →
        selectiveRoundTrip s =
          { s with radius := parse_radius (some (serialize_radius s.radius)) }) ∧
      (∀ s ∈ sampleMixedGroup.surfaces, s.visibility ≠ .REDACTED →
        (s.radius = .inf ∨ s.radius.absGeSentinel = false) →
        selectiveRoundTrip s = s) ∧
      (∀ s ∈ sampleMixedGroup.surfaces, s.visibility = .REDACTED →
        selectiveRoundTrip s = redactedPlaceholder s.surface_number) :=
  C1_selective_roundtrip sampleMixedGroup 5 9 (by decide) (by decide)

end OBB
